import Mathlib

/-!
Shallow embedding of the `celiter` package: a lazily-advancing cursor over
producer callbacks (`hasNext`, `next`, `convert`), exposing the CEL-facing
operations `HasNext`, `Next`, `Get`, `Size`, `Contains` and
`ConvertToNative`, together with the bridging functions `FromSeq` and
`AsSeq`.  Stateful Go methods become functions `Cursor S T → R × Cursor S T`
where `S` is the producer's closure state; the Go loops take explicit fuel,
with `Outcome.outOfFuel` marking non-termination within the given fuel and
`Outcome.fault` marking a runtime fault (a failed `.(bool)` interface
conversion, or a reflection call on a nil type).
-/

set_option autoImplicit false

namespace Celiter

/-- Host-engine values (`ref.Val`) restricted to the shapes this development
uses: CEL booleans, integers, strings and error values (`types.Err`). -/
inductive RefVal where
  | bool : Bool → RefVal
  | int : Int → RefVal
  | str : String → RefVal
  | err : String → RefVal
deriving DecidableEq

/-- Host equality (`ref.Val.Equal`): an error value returns itself; same-kind
values compare by value; different kinds compare to `False`. -/
def RefVal.Equal : RefVal → RefVal → RefVal
  | .err m, _ => .err m
  | .bool a, .bool b => .bool (a == b)
  | .int a, .int b => .bool (a == b)
  | .str a, .str b => .bool (a == b)
  | _, _ => .bool false

/-- The Go type assertion `.Value().(bool)`: `some b` on a CEL boolean,
`none` (a runtime panic) on anything else — in particular on a `types.Err`,
whose `Value()` is the wrapped Go error, not a `bool`. -/
def RefVal.valueBool : RefVal → Option Bool
  | .bool b => some b
  | _ => none

/-- `fmt.Sprintf("%v", rv)`, as used by `AsSeq`'s availability check. -/
def RefVal.format : RefVal → String
  | .bool true => "true"
  | .bool false => "false"
  | .int i => toString i
  | .str s => s
  | .err m => m

/-- The CEL type name of a value, as used in `Get`'s key-type error. -/
def RefVal.typeName : RefVal → String
  | .bool _ => "bool"
  | .int _ => "int"
  | .str _ => "string"
  | .err _ => "error"

/-- The state of a `celiter.Value[T]`: the visited index (starts at `-1`),
the current element `cur` (the Go zero value before any advance), the
producer-closure state `pstate`, and the three callbacks.  A Go callback
`func() (R, error)` becomes `S → Except String R × S`. -/
@[ext]
structure Cursor (S T : Type) where
  index : Int
  cur : T
  pstate : S
  hasNext : S → Except String Bool × S
  next : S → Except String T × S
  convert : T → RefVal

/-- `celiter.New`: missing callbacks are replaced by the documented defaults
(always-false availability, an advance failing with "no next element", and
the adapter's generic native-to-host conversion `nativeToValue`); the index
starts at `-1` and `cur` at the zero value of `T`. -/
def New {S T : Type} [Inhabited T]
    (hasNext : Option (S → Except String Bool × S))
    (next : Option (S → Except String T × S))
    (convert : Option (T → RefVal))
    (nativeToValue : T → RefVal) (s0 : S) : Cursor S T where
  index := -1
  cur := default
  pstate := s0
  hasNext := hasNext.getD fun s => (.ok false, s)
  next := next.getD fun s => (.error "no next element", s)
  convert := convert.getD nativeToValue

/-- `Value.HasNext`: invoke the `hasNext` callback; an error is wrapped into
a host error value, otherwise the boolean is returned as a host boolean. -/
def Cursor.HasNext {S T : Type} (c : Cursor S T) : RefVal × Cursor S T :=
  match c.hasNext c.pstate with
  | (.error e, s) => (.err ("error checking for next element: " ++ e), { c with pstate := s })
  | (.ok b, s) => (.bool b, { c with pstate := s })

/-- `Value.Next`: invoke the `next` callback; on error return a wrapped host
error value (leaving `cur` and `index` untouched); on success store the
element as `cur`, increment `index`, and return `convert` of it. -/
def Cursor.Next {S T : Type} (c : Cursor S T) : RefVal × Cursor S T :=
  match c.next c.pstate with
  | (.error e, s) => (.err ("error getting next element: " ++ e), { c with pstate := s })
  | (.ok t, s) => (c.convert t, { c with cur := t, index := c.index + 1, pstate := s })

/-- The result of running one of the Go loops: a returned `ref.Val`, a
runtime fault (failed interface conversion), or fuel exhaustion (the loop
did not terminate within the allotted steps). -/
inductive Outcome where
  | ret : RefVal → Outcome
  | fault : Outcome
  | outOfFuel : Outcome
deriving DecidableEq

/-- The advance loop of `Value.Get`: while `index < keyIndex`, evaluate
`HasNext().Value().(bool)` (a non-boolean — e.g. an error value — faults);
`false` returns the out-of-bounds error; otherwise `Next()` runs with its
result discarded, exactly as in the Go source. -/
def Cursor.getLoop {S T : Type} : Nat → Int → Cursor S T → Outcome × Cursor S T
  | 0, _, c => (.outOfFuel, c)
  | fuel + 1, keyIndex, c =>
    if c.index < keyIndex then
      match c.HasNext with
      | (hn, c1) =>
        match hn.valueBool with
        | none => (.fault, c1)
        | some b =>
          if b then
            match c1.Next with
            | (_, c2) => Cursor.getLoop fuel keyIndex c2
          else
            (.ret (.err "index out of bounds during iterable access"), c1)
    else
      (.ret (c.convert c.cur), c)

/-- `Value.Get`: key must be a CEL integer, non-negative, and not strictly
below the current index; then the advance loop runs and `convert cur` is
returned. -/
def Cursor.Get {S T : Type} (fuel : Nat) (c : Cursor S T) (key : RefVal) : Outcome × Cursor S T :=
  match key with
  | .int k =>
    if k < 0 then (.ret (.err "index cannot be negative"), c)
    else if k < c.index then (.ret (.err "index already passed"), c)
    else c.getLoop fuel k
  | _ => (.ret (.err ("invalid key type for iterable: " ++ key.typeName ++ ", must be int")), c)

/-- The drain loop of `Value.Size`: while `HasNext().Value().(bool)` (same
fault behaviour as `Get`), run `Next()` (result discarded) and count. -/
def Cursor.sizeLoop {S T : Type} : Nat → Nat → Cursor S T → Outcome × Cursor S T
  | 0, _, c => (.outOfFuel, c)
  | fuel + 1, size, c =>
    match c.HasNext with
    | (hn, c1) =>
      match hn.valueBool with
      | none => (.fault, c1)
      | some b =>
        if b then
          match c1.Next with
          | (_, c2) => Cursor.sizeLoop fuel (size + 1) c2
        else (.ret (.int size), c1)

/-- `Value.Size`: drain the stream counting steps, returning the count. -/
def Cursor.Size {S T : Type} (fuel : Nat) (c : Cursor S T) : Outcome × Cursor S T :=
  c.sizeLoop fuel 0

/-- The scan loop of `Value.Contains`: while `HasNext().Value().(bool)`
(same fault behaviour), advance and compare the converted element to `val`
via host equality against CEL `true`. -/
def Cursor.containsLoop {S T : Type} : Nat → RefVal → Cursor S T → Outcome × Cursor S T
  | 0, _, c => (.outOfFuel, c)
  | fuel + 1, val, c =>
    match c.HasNext with
    | (hn, c1) =>
      match hn.valueBool with
      | none => (.fault, c1)
      | some b =>
        if b then
          match c1.Next with
          | (nv, c2) =>
            if nv.Equal val = .bool true then (.ret (.bool true), c2)
            else Cursor.containsLoop fuel val c2
        else (.ret (.bool false), c1)

/-- `Value.Contains`: scan for a host-equal element. -/
def Cursor.Contains {S T : Type} (fuel : Nat) (c : Cursor S T) (val : RefVal) : Outcome × Cursor S T :=
  c.containsLoop fuel val

/-- The small universe of native Go types this development distinguishes. -/
inductive GoType where
  | tString : GoType
  | tInt : GoType
  | tBool : GoType
deriving DecidableEq

/-- `reflect.Type.Name()` for the modelled types. -/
def GoType.name : GoType → String
  | .tString => "string"
  | .tInt => "int"
  | .tBool => "bool"

/-- `reflect.Type.AssignableTo` restricted to the modelled concrete types:
assignability is type identity. -/
def assignableTo (a b : GoType) : Bool := a == b

/-- Result of `ConvertToNative`: a native value, a Go error, or a runtime
fault (`reflect.TypeOf` returned a nil `reflect.Type` — a nil interface
element — and the method call on it panics). -/
inductive NativeOutcome (T : Type) where
  | ok : T → NativeOutcome T
  | err : String → NativeOutcome T
  | fault : NativeOutcome T
deriving DecidableEq

/-- `Value.ConvertToNative`: take the current element (the zero value of `T`
before any advance), compute its runtime type via `typeOf` (`none` models a
nil interface, on which the Go code faults), and return the element if
assignable to `typ`, else an error naming the types. -/
def Cursor.ConvertToNative {S T : Type} (c : Cursor S T)
    (typeOf : T → Option GoType) (typ : GoType) : NativeOutcome T :=
  match typeOf c.cur with
  | none => .fault
  | some t =>
    if assignableTo t typ then .ok c.cur
    else .err ("unable to convert dyn to native type " ++ typ.name)

/-- The availability callback built by `FromSeq` over `iter.Pull`: the
producer state is the pair (remaining elements, shared `cur` slot); pulling
an element moves it into the slot; on exhaustion the pull returns the zero
value, which is stored in the slot, and `stop()` is invoked. -/
def fromSeqHasNext {T : Type} [Inhabited T] : List T × T → Except String Bool × (List T × T)
  | ([], _) => (.ok false, ([], default))
  | (x :: rest, _) => (.ok true, (rest, x))

/-- The advance callback built by `FromSeq`: return the shared slot. -/
def fromSeqNext {T : Type} : List T × T → Except String T × (List T × T) :=
  fun ps => (.ok ps.2, ps)

/-- `celiter.FromSeq`: import a native generator (a finite one is its list
of yielded elements) by wrapping `iter.Pull`'s next/stop pair in the
two-callback pull protocol and handing the triple to `New`. -/
def FromSeq {T : Type} [Inhabited T] (seq : List T) (convert : Option (T → RefVal))
    (nativeToValue : T → RefVal) : Cursor (List T × T) T :=
  New (some fromSeqHasNext) (some fromSeqNext) convert nativeToValue (seq, default)

/-- The collection loop of `celiter.AsSeq`: repeatedly check availability by
formatting the host value and comparing to "true", then advance, convert and
yield; the full yielded sequence is collected as a list.  The `hasNext` and
`getNext` closures built by `AsSeq` never return Go errors, so the only exits
are an availability check not printing "true" or fuel exhaustion. -/
def asSeqLoop {S T U : Type} (convert : RefVal → U) : Nat → Cursor S T → List U × Cursor S T
  | 0, c => ([], c)
  | fuel + 1, c =>
    match c.HasNext with
    | (hn, c1) =>
      if hn.format = "true" then
        match c1.Next with
        | (nv, c2) =>
          match asSeqLoop convert fuel c2 with
          | (rest, c3) => (convert nv :: rest, c3)
      else ([], c1)

/-- `celiter.AsSeq` applied to a cursor (a cursor always satisfies the
iterator capability, so the empty-sequence branch for non-iterators is not
taken): the list of elements the exported generator yields. -/
def AsSeq {S T U : Type} (convert : RefVal → U) (fuel : Nat) (c : Cursor S T) : List U :=
  (asSeqLoop convert fuel c).1

/-- A well-behaved producer: element `i` of the stream is `elem i`;
`bound = some m` gives a length-`m` stream, `bound = none` an infinite one.
Its `hasNext` reports availability without consuming and never fails; its
`next` yields the next element and advances; the closure state is the number
of elements produced so far. -/
def streamHasNext (bound : Option Nat) : Nat → Except String Bool × Nat :=
  fun n => (.ok (match bound with | none => true | some m => decide (n < m)), n)

/-- The advance callback of a well-behaved producer. -/
def streamNext {T : Type} (elem : Nat → T) : Nat → Except String T × Nat :=
  fun n => (.ok (elem n), n + 1)

/-- The cursor over a well-behaved producer after `n` successful advances:
`index = n - 1`, `cur` is the last element delivered (the zero value when
`n = 0`), and the producer has been consumed exactly `n` times.
`streamState elem bound convert 0` is the fresh cursor. -/
def streamState {T : Type} [Inhabited T] (elem : Nat → T) (bound : Option Nat)
    (convert : T → RefVal) (n : Nat) : Cursor Nat T where
  index := (n : Int) - 1
  cur := if n = 0 then default else elem (n - 1)
  pstate := n
  hasNext := streamHasNext bound
  next := streamNext elem
  convert := convert

/-- The fresh cursor over a well-behaved producer. -/
def streamCursor {T : Type} [Inhabited T] (elem : Nat → T) (bound : Option Nat)
    (convert : T → RefVal) : Cursor Nat T :=
  streamState elem bound convert 0

/-- A cursor whose availability callback always fails. -/
def errHasNextCursor : Cursor Unit Unit where
  index := -1
  cur := ()
  pstate := ()
  hasNext := fun s => (.error "boom", s)
  next := fun s => (.ok (), s)
  convert := fun _ => .int 0

/-- A cursor whose availability callback always succeeds with `true` but
whose advance callback always fails. -/
def errNextCursor : Cursor Unit Unit where
  index := -1
  cur := ()
  pstate := ()
  hasNext := fun s => (.ok true, s)
  next := fun s => (.error "boom", s)
  convert := fun _ => .int 0

/-- The Fibonacci stream 0, 1, 1, 2, 3, 5, 8, 13, 21, 34, 55, … -/
def fibFn : Nat → Nat
  | 0 => 0
  | 1 => 1
  | n + 2 => fibFn n + fibFn (n + 1)

/-- First position in `[n, n + d)` whose converted element is host-equal to
`x`, if any. -/
def firstMatchFrom {T : Type} (elem : Nat → T) (cvt : T → RefVal) (x : RefVal) :
    Nat → Nat → Option Nat
  | _, 0 => none
  | n, d + 1 =>
    if (cvt (elem n)).Equal x = RefVal.bool true then some n
    else firstMatchFrom elem cvt x (n + 1) d

/-- `AsSeq`'s default export conversion `val.Value().(string)` at string
values (on any other value the Go type assertion would fault; the uses below
only reach string values). -/
def strOfRefVal : RefVal → String
  | .str s => s
  | _ => ""

/-- The runtime type of a Go `string` element: always `string`, never nil. -/
def strTypeOf : String → Option GoType := fun _ => some .tString

/-- The runtime type of an interface-typed element modelled as
`Option String`: `none` is a nil interface, on which `reflect.TypeOf`
returns a nil `reflect.Type`. -/
def optTypeOf : Option String → Option GoType :=
  fun o => o.map fun _ => GoType.tString

/-- A fresh cursor over `string` elements built with all default callbacks:
no advance has occurred, `cur` is the zero value `""`. -/
def freshStrCursor : Cursor Unit String :=
  New none none none RefVal.str ()

/-- A fresh cursor whose element type is interface-like (`Option String`):
no advance has occurred, `cur` is the zero value `none` (a nil interface). -/
def freshNilCursor : Cursor Unit (Option String) :=
  New none none none (fun _ => RefVal.int 0) ()

/-- A cursor that has delivered the element "sample" at index 2 and whose
producer is exhausted (availability reports false). -/
def idxCursor : Cursor Unit String where
  index := 2
  cur := "sample"
  pstate := ()
  hasNext := fun s => (.ok false, s)
  next := fun s => (.error "no next element", s)
  convert := .str

/-! ### Basic lemmas about cursors over well-behaved producers -/

section StreamLemmas

variable {T : Type} [Inhabited T] (elem : Nat → T) (bound : Option Nat) (cvt : T → RefVal)

theorem streamState_index (n : Nat) :
    (streamState elem bound cvt n).index = (n : Int) - 1 := rfl

theorem streamState_pstate (n : Nat) :
    (streamState elem bound cvt n).pstate = n := rfl

theorem streamState_convert (n : Nat) :
    (streamState elem bound cvt n).convert = cvt := rfl

theorem streamState_cur_succ (n : Nat) :
    (streamState elem bound cvt (n + 1)).cur = elem n := rfl

theorem streamState_HasNext_true (n : Nat) (h : ∀ m, bound = some m → n < m) :
    (streamState elem bound cvt n).HasNext = (.bool true, streamState elem bound cvt n) := by
  cases bound with
  | none => rfl
  | some m =>
    have hm := h m rfl
    simp [Cursor.HasNext, streamState, streamHasNext, hm]

theorem streamState_HasNext_false (n m : Nat) (hb : bound = some m) (h : m ≤ n) :
    (streamState elem bound cvt n).HasNext = (.bool false, streamState elem bound cvt n) := by
  subst hb
  simp [Cursor.HasNext, streamState, streamHasNext, Nat.not_lt.mpr h]

theorem streamState_Next (n : Nat) :
    (streamState elem bound cvt n).Next = (cvt (elem n), streamState elem bound cvt (n + 1)) := by
  simp only [Cursor.Next, streamState, streamNext]
  refine Prod.ext rfl ?_
  refine Cursor.ext ?_ ?_ rfl rfl rfl rfl
  · simp only []
    push_cast
    ring
  · simp

/-- Running `Get`'s advance loop over a well-behaved producer from the state
reached after `n` advances, towards key `kn` still ahead of (or at) the
current index, with `kn` inside the stream's bound: the loop delivers
`convert (elem kn)` and consumes the producer exactly through position
`kn`. -/
theorem stream_getLoop :
    ∀ (fuel n kn : Nat), n ≤ kn + 1 → kn + 1 - n < fuel →
      (∀ m, bound = some m → kn < m) →
      Cursor.getLoop fuel (kn : Int) (streamState elem bound cvt n) =
        (Outcome.ret (cvt (elem kn)), streamState elem bound cvt (kn + 1)) := by
  intro fuel
  induction fuel with
  | zero => intro n kn _ h2 _; omega
  | succ fuel ih =>
    intro n kn h1 h2 hb
    rw [Cursor.getLoop]
    by_cases hle : n ≤ kn
    · rw [if_pos (by rw [streamState_index]; omega),
        streamState_HasNext_true elem bound cvt n (fun m hm => lt_of_le_of_lt hle (hb m hm))]
      simp only [RefVal.valueBool, if_pos]
      rw [streamState_Next]
      exact ih (n + 1) kn (by omega) (by omega) hb
    · have hn : n = kn + 1 := by omega
      subst hn
      rw [if_neg (by rw [streamState_index]; omega)]
      rw [streamState_convert, streamState_cur_succ]

/-- Running `Get`'s advance loop towards a key at or past the stream's
bound: the loop drains the remaining elements and then reports the
out-of-bounds error, leaving the producer exhausted. -/
theorem stream_getLoop_oob :
    ∀ (fuel n m : Nat) (kn : Int), bound = some m → n ≤ m → (m : Int) ≤ kn → m - n < fuel →
      Cursor.getLoop fuel kn (streamState elem bound cvt n) =
        (Outcome.ret (.err "index out of bounds during iterable access"),
          streamState elem bound cvt m) := by
  intro fuel
  induction fuel with
  | zero => intro n m kn _ _ _ h4; omega
  | succ fuel ih =>
    intro n m kn hb h1 h2 h3
    rw [Cursor.getLoop, if_pos (by rw [streamState_index]; omega)]
    by_cases hlt : n < m
    · rw [streamState_HasNext_true elem bound cvt n
        (fun m2 hm2 => by rw [hb] at hm2; cases hm2; omega)]
      simp only [RefVal.valueBool, if_pos]
      rw [streamState_Next]
      exact ih (n + 1) m kn hb (by omega) h2 (by omega)
    · have hnm : n = m := by omega
      subst hnm
      rw [streamState_HasNext_false elem bound cvt n n hb le_rfl]
      simp [RefVal.valueBool]

/-- Running `Size`'s drain loop over a length-`m` well-behaved producer from
the state reached after `n` advances: it counts the `m - n` remaining
elements and leaves the producer exhausted. -/
theorem stream_sizeLoop :
    ∀ (fuel acc n m : Nat), bound = some m → n ≤ m → m - n < fuel →
      Cursor.sizeLoop fuel acc (streamState elem bound cvt n) =
        (Outcome.ret (.int ((acc + (m - n) : Nat) : Int)), streamState elem bound cvt m) := by
  intro fuel
  induction fuel with
  | zero => intro acc n m _ _ h3; omega
  | succ fuel ih =>
    intro acc n m hb h1 h2
    rw [Cursor.sizeLoop]
    by_cases hlt : n < m
    · rw [streamState_HasNext_true elem bound cvt n
        (fun m2 hm2 => by rw [hb] at hm2; cases hm2; omega)]
      simp only [RefVal.valueBool, if_pos]
      rw [streamState_Next]
      have heq : acc + 1 + (m - (n + 1)) = acc + (m - n) := by omega
      rw [ih (acc + 1) (n + 1) m hb (by omega) (by omega), heq]
    · have hnm : n = m := by omega
      subst hnm
      rw [streamState_HasNext_false elem bound cvt n n hb le_rfl]
      simp [RefVal.valueBool]

/-- Running `Contains`'s scan loop over the `d` remaining elements of a
length-`m` well-behaved producer: it stops just past the first host-equal
element (if any), else drains the stream and reports false. -/
theorem stream_containsLoop (x : RefVal) :
    ∀ (d fuel n m : Nat), bound = some m → n + d = m → d < fuel →
      Cursor.containsLoop fuel x (streamState elem bound cvt n) =
        (match firstMatchFrom elem cvt x n d with
         | some k => (Outcome.ret (.bool true), streamState elem bound cvt (k + 1))
         | none => (Outcome.ret (.bool false), streamState elem bound cvt m)) := by
  intro d
  induction d with
  | zero =>
    intro fuel n m hb h1 h2
    obtain ⟨f, rfl⟩ : ∃ f, fuel = f + 1 := ⟨fuel - 1, by omega⟩
    rw [Cursor.containsLoop,
      streamState_HasNext_false elem bound cvt n m hb (by omega)]
    have hnm : n = m := by omega
    subst hnm
    simp [RefVal.valueBool, firstMatchFrom]
  | succ d ih =>
    intro fuel n m hb h1 h2
    obtain ⟨f, rfl⟩ : ∃ f, fuel = f + 1 := ⟨fuel - 1, by omega⟩
    rw [Cursor.containsLoop,
      streamState_HasNext_true elem bound cvt n
        (fun m2 hm2 => by rw [hb] at hm2; cases hm2; omega)]
    simp only [RefVal.valueBool, if_pos]
    rw [streamState_Next, firstMatchFrom]
    by_cases hm : (cvt (elem n)).Equal x = RefVal.bool true
    · rw [if_pos hm, if_pos hm]
    · rw [if_neg hm, if_neg hm, ih f (n + 1) m hb (by omega) (by omega)]

/-- `firstMatchFrom` finds a position iff some element of the scanned window
is host-equal to the probe. -/
theorem firstMatchFrom_isSome_iff {T : Type} (elem : Nat → T) (cvt : T → RefVal) (x : RefVal) :
    ∀ (d n : Nat), firstMatchFrom elem cvt x n d ≠ none ↔
      ∃ k, n ≤ k ∧ k < n + d ∧ (cvt (elem k)).Equal x = RefVal.bool true := by
  intro d
  induction d with
  | zero =>
    intro n
    simp only [firstMatchFrom]
    constructor
    · intro h; exact absurd rfl h
    · rintro ⟨k, h1, h2, _⟩; omega
  | succ d ih =>
    intro n
    rw [firstMatchFrom]
    by_cases hm : (cvt (elem n)).Equal x = RefVal.bool true
    · rw [if_pos hm]
      constructor
      · intro _; exact ⟨n, le_refl n, by omega, hm⟩
      · intro _; simp
    · rw [if_neg hm, ih (n + 1)]
      constructor
      · rintro ⟨k, h1, h2, h3⟩; exact ⟨k, by omega, by omega, h3⟩
      · rintro ⟨k, h1, h2, h3⟩
        refine ⟨k, by
          rcases Nat.eq_or_lt_of_le h1 with he | hl
          · subst he; exact absurd h3 hm
          · omega, by omega, h3⟩

/-- A position found by `firstMatchFrom` is a match and is the first one in
the scanned window. -/
theorem firstMatchFrom_spec {T : Type} (elem : Nat → T) (cvt : T → RefVal) (x : RefVal) :
    ∀ (d n k : Nat), firstMatchFrom elem cvt x n d = some k →
      n ≤ k ∧ k < n + d ∧ (cvt (elem k)).Equal x = RefVal.bool true ∧
        ∀ j, n ≤ j → j < k → (cvt (elem j)).Equal x ≠ RefVal.bool true := by
  intro d
  induction d with
  | zero => intro n k h; exact absurd h (by simp [firstMatchFrom])
  | succ d ih =>
    intro n k h
    rw [firstMatchFrom] at h
    by_cases hm : (cvt (elem n)).Equal x = RefVal.bool true
    · rw [if_pos hm] at h
      cases h
      exact ⟨le_refl n, by omega, hm, fun j h1 h2 => by omega⟩
    · rw [if_neg hm] at h
      obtain ⟨h1, h2, h3, h4⟩ := ih (n + 1) k h
      refine ⟨by omega, by omega, h3, fun j hj1 hj2 => ?_⟩
      rcases Nat.eq_or_lt_of_le hj1 with he | hl
      · subst he; exact hm
      · exact h4 j hl hj2

end StreamLemmas

/-! ### Index monotonicity -/

theorem HasNext_index {S T : Type} (c : Cursor S T) : (c.HasNext).2.index = c.index := by
  rcases h : c.hasNext c.pstate with ⟨r, s⟩
  rw [Cursor.HasNext, h]
  cases r <;> rfl

theorem Next_index_le {S T : Type} (c : Cursor S T) : c.index ≤ (c.Next).2.index := by
  rcases h : c.next c.pstate with ⟨r, s⟩
  rw [Cursor.Next, h]
  cases r with
  | error e => exact le_refl _
  | ok t => exact le_of_lt (lt_add_one _)

theorem getLoop_index_le {S T : Type} :
    ∀ (fuel : Nat) (k : Int) (c : Cursor S T), c.index ≤ (Cursor.getLoop fuel k c).2.index := by
  intro fuel
  induction fuel with
  | zero => intro k c; exact le_refl _
  | succ fuel ih =>
    intro k c
    rw [Cursor.getLoop]
    by_cases hc : c.index < k
    · rw [if_pos hc]
      rcases hh : c.HasNext with ⟨hn, c1⟩
      have h1 : c1.index = c.index := by rw [← HasNext_index c, hh]
      simp only []
      rcases hvb : hn.valueBool with _ | b
      · exact h1.ge
      · simp only []
        cases b
        · rw [if_neg (by simp)]
          exact h1.ge
        · rw [if_pos rfl]
          calc c.index = c1.index := h1.symm
            _ ≤ (c1.Next).2.index := Next_index_le c1
            _ ≤ _ := ih k (c1.Next).2
    · rw [if_neg hc]


theorem sizeLoop_index_le {S T : Type} :
    ∀ (fuel acc : Nat) (c : Cursor S T), c.index ≤ (Cursor.sizeLoop fuel acc c).2.index := by
  intro fuel
  induction fuel with
  | zero => intro acc c; exact le_refl _
  | succ fuel ih =>
    intro acc c
    rw [Cursor.sizeLoop]
    rcases hh : c.HasNext with ⟨hn, c1⟩
    have h1 : c1.index = c.index := by rw [← HasNext_index c, hh]
    simp only []
    rcases hvb : hn.valueBool with _ | b
    · exact h1.ge
    · simp only []
      cases b
      · rw [if_neg (by simp)]
        exact h1.ge
      · rw [if_pos rfl]
        calc c.index = c1.index := h1.symm
          _ ≤ (c1.Next).2.index := Next_index_le c1
          _ ≤ _ := ih (acc + 1) (c1.Next).2

theorem containsLoop_index_le {S T : Type} :
    ∀ (fuel : Nat) (x : RefVal) (c : Cursor S T),
      c.index ≤ (Cursor.containsLoop fuel x c).2.index := by
  intro fuel
  induction fuel with
  | zero => intro x c; exact le_refl _
  | succ fuel ih =>
    intro x c
    rw [Cursor.containsLoop]
    rcases hh : c.HasNext with ⟨hn, c1⟩
    have h1 : c1.index = c.index := by rw [← HasNext_index c, hh]
    simp only []
    rcases hvb : hn.valueBool with _ | b
    · exact h1.ge
    · simp only []
      cases b
      · rw [if_neg (by simp)]
        exact h1.ge
      · rw [if_pos rfl]
        rcases hn2 : c1.Next with ⟨nv, c2⟩
        have h2 : c1.index ≤ c2.index := by
          have := Next_index_le c1
          rwa [hn2] at this
        simp only []
        by_cases hm : nv.Equal x = RefVal.bool true
        · rw [if_pos hm]
          exact le_trans (le_of_eq h1.symm) h2
        · rw [if_neg hm]
          calc c.index = c1.index := h1.symm
            _ ≤ c2.index := h2
            _ ≤ _ := ih x c2

/-- With `hasNext` always reporting true and `next` always failing, `Get`'s
advance loop discards the error value that `Next` returns, never increments
the index, and therefore loops forever (exhausting any amount of fuel). -/
theorem errNext_getLoop :
    ∀ fuel : Nat, Cursor.getLoop fuel 0 errNextCursor = (Outcome.outOfFuel, errNextCursor) := by
  intro fuel
  induction fuel with
  | zero => rfl
  | succ fuel ih => exact ih

/-- Collecting `AsSeq`'s generator over a `FromSeq`-backed cursor whose
remaining pulled elements are `l` yields `l`, converted element by
element. -/
theorem fromSeq_asSeqLoop {T U : Type} [Inhabited T] (f : T → RefVal) (g : RefVal → U) :
    ∀ (l : List T) (fuel : Nat) (i : Int) (cv : T) (slot : T), l.length < fuel →
      (asSeqLoop g fuel (Cursor.mk i cv (l, slot) fromSeqHasNext fromSeqNext f)).1 =
        l.map fun t => g (f t) := by
  intro l
  induction l with
  | nil =>
    intro fuel i cv slot hf
    obtain ⟨fu, rfl⟩ : ∃ fu, fuel = fu + 1 := ⟨fuel - 1, by omega⟩
    rw [asSeqLoop]
    have hH : (Cursor.mk i cv (([] : List T), slot) fromSeqHasNext fromSeqNext f).HasNext
        = (.bool false, Cursor.mk i cv (([] : List T), default) fromSeqHasNext fromSeqNext f) := rfl
    rw [hH]
    simp [RefVal.format]
  | cons x rest ih =>
    intro fuel i cv slot hf
    obtain ⟨fu, rfl⟩ : ∃ fu, fuel = fu + 1 := ⟨fuel - 1, by omega⟩
    rw [asSeqLoop]
    have hH : (Cursor.mk i cv ((x :: rest, slot)) fromSeqHasNext fromSeqNext f).HasNext
        = (.bool true, Cursor.mk i cv ((rest, x)) fromSeqHasNext fromSeqNext f) := rfl
    rw [hH]
    simp only [RefVal.format, if_pos]
    have hN : (Cursor.mk i cv ((rest, x)) fromSeqHasNext fromSeqNext f).Next
        = (f x, Cursor.mk (i + 1) x ((rest, x)) fromSeqHasNext fromSeqNext f) := rfl
    rw [hN]
    rcases har : asSeqLoop g fu (Cursor.mk (i + 1) x ((rest, x)) fromSeqHasNext fromSeqNext f)
      with ⟨ys, c3⟩
    have hys := ih fu (i + 1) x x (by simpa using Nat.lt_of_succ_lt_succ hf)
    rw [har] at hys
    simp only [List.map]
    rw [← hys]

/-! ### Claim theorems -/

/-- C1: The claim that every producer error surfaces as a host error value
— in particular that a failing `hasNext` callback makes `Get`, `Size` and
`Contains` each return a host error value rather than faulting, and that a
failing `next` callback inside `Get`'s advance loop propagates immediately
as `Get`'s result — is contradicted by the code: on a failing `hasNext` the
`.Value().(bool)` type assertion in each of the three methods faults (the
error value's payload is a Go error, not a bool), and inside `Get`'s loop
the error value returned by `Next` is discarded, so with availability still
reported true the loop never terminates, whatever fuel it is given. -/
theorem hasNextError_faults :
    (Cursor.Get 5 errHasNextCursor (.int 0)).1 = Outcome.fault ∧
    (Cursor.Size 5 errHasNextCursor).1 = Outcome.fault ∧
    (Cursor.Contains 5 errHasNextCursor (.bool true)).1 = Outcome.fault ∧
    ∀ fuel : Nat, (Cursor.Get fuel errNextCursor (.int 0)).1 = Outcome.outOfFuel := by
  refine ⟨rfl, rfl, rfl, fun fuel => ?_⟩
  rw [show Cursor.Get fuel errNextCursor (.int 0) = Cursor.getLoop fuel 0 errNextCursor from rfl,
    errNext_getLoop fuel]

/-- C2: Importing a finite native generator with `FromSeq` and exporting the
resulting value with `AsSeq` yields, in order, exactly the elements the
generator would yield directly, whenever the export conversion inverts
the import conversion (as the default CEL conversions do for strings). -/
theorem fromSeq_asSeq_roundTrip {T : Type} [Inhabited T] (l : List T) (f : T → RefVal)
    (g : RefVal → T) (ntv : T → RefVal) (fuel : Nat)
    (hinv : ∀ t, g (f t) = t) (hfuel : l.length < fuel) :
    AsSeq g fuel (FromSeq l (some f) ntv) = l := by
  have heq : FromSeq l (some f) ntv
      = Cursor.mk (-1) default (l, default) fromSeqHasNext fromSeqNext f := rfl
  rw [AsSeq, heq, fromSeq_asSeqLoop f g l fuel (-1) default default hfuel]
  clear hfuel
  induction l with
  | nil => rfl
  | cons x rest ihl => simp [hinv, ihl]

/-- C2 witness: the spec's example generator yielding
"test", "example", "sample". -/
theorem fromSeq_asSeq_roundTrip_witness :
    (["test", "example", "sample"] : List String).length < 4 ∧
    AsSeq strOfRefVal 4 (FromSeq ["test", "example", "sample"] (some RefVal.str) RefVal.str)
      = ["test", "example", "sample"] :=
  ⟨by decide, fromSeq_asSeq_roundTrip ["test", "example", "sample"] RefVal.str strOfRefVal
      RefVal.str 4 (fun t => rfl) (by decide)⟩

/-- C3: On a fresh cursor over a well-behaved producer (finite of length
greater than `i`, or infinite), `get(i)` returns the converted `(i+1)`-th
advanced element, and the resulting cursor is exactly the state after
`i + 1` advances: its producer position is `i + 1`, so the producer was
consumed exactly `i + 1` times and no further. -/
theorem get_fresh_stream {T : Type} [Inhabited T] (elem : Nat → T) (bound : Option Nat)
    (cvt : T → RefVal) (i fuel : Nat) (hfuel : i + 1 < fuel)
    (hbound : ∀ m, bound = some m → i < m) :
    Cursor.Get fuel (streamCursor elem bound cvt) (.int i) =
      (Outcome.ret (cvt (elem i)), streamState elem bound cvt (i + 1)) ∧
    (streamState elem bound cvt (i + 1)).pstate = i + 1 := by
  refine ⟨?_, rfl⟩
  show Cursor.Get fuel (streamState elem bound cvt 0) (.int i) = _
  rw [Cursor.Get]
  rw [if_neg (by omega), if_neg (by rw [streamState_index]; omega)]
  exact stream_getLoop elem bound cvt fuel 0 i (by omega) (by omega) hbound

/-- C3 witness: the spec's infinite Fibonacci scenario, `get(10) == 55`,
with the producer consumed exactly 11 times. -/
theorem get_fresh_stream_witness :
    10 + 1 < 12 ∧
    Cursor.Get 12 (streamCursor fibFn none (fun t => RefVal.int t)) (.int 10) =
      (Outcome.ret (RefVal.int 55), streamState fibFn none (fun t => RefVal.int t) 11) := by
  refine ⟨by decide, ?_⟩
  exact (get_fresh_stream fibFn none (fun t => RefVal.int t) 10 12 (by decide)
    (fun m hm => nomatch hm)).1

/-- C4: `Get` validates its key in order: a non-integer host key yields the
"invalid key type" error naming the key's type; a negative integer key
yields "index cannot be negative"; an integer key strictly below the current
index yields "index already passed" (each leaving the cursor untouched —
in particular `get(i)` after `get(j)` with `i < j` fails this way); and when
the stream is exhausted before the index reaches the key — `get(kn)` with
`kn ≥ m` on a length-`m` well-behaved producer — the loop drains the stream
and yields the "index out of bounds" error. -/
theorem get_validation :
    (∀ (S T : Type) (c : Cursor S T) (fuel : Nat) (key : RefVal),
        (∀ k : Int, key ≠ RefVal.int k) →
        Cursor.Get fuel c key =
          (Outcome.ret (.err ("invalid key type for iterable: " ++ key.typeName ++ ", must be int")),
            c)) ∧
    (∀ (S T : Type) (c : Cursor S T) (fuel : Nat) (k : Int), k < 0 →
        Cursor.Get fuel c (.int k) = (Outcome.ret (.err "index cannot be negative"), c)) ∧
    (∀ (S T : Type) (c : Cursor S T) (fuel : Nat) (k : Int), 0 ≤ k → k < c.index →
        Cursor.Get fuel c (.int k) = (Outcome.ret (.err "index already passed"), c)) ∧
    (∀ (T : Type) [Inhabited T] (elem : Nat → T) (cvt : T → RefVal) (m kn n fuel : Nat),
        n ≤ m → m ≤ kn → m - n < fuel →
        Cursor.Get fuel (streamState elem (some m) cvt n) (.int kn) =
          (Outcome.ret (.err "index out of bounds during iterable access"),
            streamState elem (some m) cvt m)) := by
  refine ⟨?_, ?_, ?_, ?_⟩
  · intro S T c fuel key hk
    cases key with
    | bool b => rfl
    | int k => exact absurd rfl (hk k)
    | str s => rfl
    | err e => rfl
  · intro S T c fuel k hk
    rw [Cursor.Get, if_pos hk]
  · intro S T c fuel k hk0 hki
    rw [Cursor.Get, if_neg (by omega), if_pos hki]
  · intro T ht elem cvt m kn n fuel h1 h2 h3
    rw [Cursor.Get, if_neg (by omega), if_neg (by rw [streamState_index]; omega)]
    exact stream_getLoop_oob elem (some m) cvt fuel n m kn rfl h1 (by omega) h3

/-- C4 witness: each validation error at a concrete input. -/
theorem get_validation_witness :
    Cursor.Get 5 idxCursor (.bool true)
      = (Outcome.ret (.err "invalid key type for iterable: bool, must be int"), idxCursor) ∧
    Cursor.Get 5 idxCursor (.int (-3))
      = (Outcome.ret (.err "index cannot be negative"), idxCursor) ∧
    Cursor.Get 5 idxCursor (.int 1)
      = (Outcome.ret (.err "index already passed"), idxCursor) ∧
    Cursor.Get 5 (streamState (fun i => i) (some 3) (fun t => RefVal.int t) 0) (.int 3)
      = (Outcome.ret (.err "index out of bounds during iterable access"),
          streamState (fun i => i) (some 3) (fun t => RefVal.int t) 3) :=
  ⟨get_validation.1 Unit String idxCursor 5 (.bool true) (fun k h => nomatch h),
   get_validation.2.1 Unit String idxCursor 5 (-3) (by decide),
   get_validation.2.2.1 Unit String idxCursor 5 1 (by decide) (by decide),
   get_validation.2.2.2 Nat (fun i => i) (fun t => RefVal.int t) 3 3 0 5 (by decide) (by decide)
     (by decide)⟩

/-- C5: `Size` on a fresh cursor over a length-`m` well-behaved producer
drains the stream and returns `m`, leaving the cursor exhausted: the
resulting state is the one after all `m` advances and a subsequent
availability check reports false. -/
theorem size_fresh_stream {T : Type} [Inhabited T] (elem : Nat → T) (cvt : T → RefVal)
    (m fuel : Nat) (hfuel : m < fuel) :
    Cursor.Size fuel (streamCursor elem (some m) cvt) =
      (Outcome.ret (.int (m : Int)), streamState elem (some m) cvt m) ∧
    ((streamState elem (some m) cvt m).HasNext).1 = .bool false := by
  constructor
  · show Cursor.Size fuel (streamState elem (some m) cvt 0) = _
    rw [Cursor.Size]
    have h := stream_sizeLoop elem (some m) cvt fuel 0 0 m rfl (by omega) (by omega)
    simpa using h
  · rw [streamState_HasNext_false elem (some m) cvt m m rfl le_rfl]

/-- C5 witness: the spec's length-3 scenario. -/
theorem size_fresh_stream_witness :
    3 < 10 ∧
    Cursor.Size 10 (streamCursor (fun i => i) (some 3) (fun t => RefVal.int t)) =
      (Outcome.ret (.int 3), streamState (fun i => i) (some 3) (fun t => RefVal.int t) 3) ∧
    ((streamState (fun i => i) (some 3) (fun t => RefVal.int t) 3).HasNext).1 = .bool false :=
  ⟨by decide,
   (size_fresh_stream (fun i => i) (fun t => RefVal.int t) 3 10 (by decide)).1,
   (size_fresh_stream (fun i => i) (fun t => RefVal.int t) 3 10 (by decide)).2⟩

/-- C6: On the state of a well-behaved length-`m` producer with positions
`[n, m)` still unconsumed, `Contains` stops just past the first host-equal
position `k` returning CEL true (the resulting state is the one after
`k + 1` advances, so elements after the match remain reachable), or drains
the stream and returns CEL false when no remaining element matches; a match
position exists exactly when some remaining element is host-equal to the
probe, and a found position is a match and is the first one. -/
theorem contains_stream {T : Type} [Inhabited T] (elem : Nat → T) (cvt : T → RefVal)
    (x : RefVal) (m n fuel : Nat) (hn : n ≤ m) (hfuel : m - n < fuel) :
    Cursor.Contains fuel (streamState elem (some m) cvt n) x =
      (match firstMatchFrom elem cvt x n (m - n) with
       | some k => (Outcome.ret (.bool true), streamState elem (some m) cvt (k + 1))
       | none => (Outcome.ret (.bool false), streamState elem (some m) cvt m)) ∧
    (firstMatchFrom elem cvt x n (m - n) ≠ none ↔
      ∃ k, n ≤ k ∧ k < m ∧ (cvt (elem k)).Equal x = RefVal.bool true) ∧
    (∀ k, firstMatchFrom elem cvt x n (m - n) = some k →
      n ≤ k ∧ k < m ∧ (cvt (elem k)).Equal x = RefVal.bool true ∧
        ∀ j, n ≤ j → j < k → (cvt (elem j)).Equal x ≠ RefVal.bool true) := by
  refine ⟨?_, ?_, ?_⟩
  · rw [Cursor.Contains]
    exact stream_containsLoop elem (some m) cvt x (m - n) fuel n m rfl (by omega) hfuel
  · have hm2 : n + (m - n) = m := by omega
    have h := firstMatchFrom_isSome_iff elem cvt x (m - n) n
    rwa [hm2] at h
  · intro k hk
    obtain ⟨h1, h2, h3, h4⟩ := firstMatchFrom_spec elem cvt x (m - n) n k hk
    exact ⟨h1, by omega, h3, h4⟩

/-- C6 witness: scanning 0,1,2,3 for the CEL integer 2 succeeds and stops
just past position 2. -/
theorem contains_stream_witness :
    (0 ≤ 4 ∧ 4 - 0 < 6) ∧
    Cursor.Contains 6 (streamState (fun i => i) (some 4) (fun t => RefVal.int t) 0) (.int 2) =
      (Outcome.ret (.bool true), streamState (fun i => i) (some 4) (fun t => RefVal.int t) 3) := by
  refine ⟨⟨by decide, by decide⟩, ?_⟩
  have h := (contains_stream (fun i => i) (fun t => RefVal.int t) (.int 2) 4 0 6 (by decide)
    (by decide)).1
  rw [h]
  rfl

/-- C7: the index starts at −1 at construction and no capability operation
ever decreases it: the availability check preserves it, and advance, indexed
get, size and containment only ever leave it equal or larger (whatever the
callbacks do); native conversion and equality do not touch the cursor in
this model at all. -/
theorem index_monotone :
    (∀ (S T : Type) [Inhabited T] (hn : Option (S → Except String Bool × S))
        (nx : Option (S → Except String T × S)) (cv : Option (T → RefVal))
        (ntv : T → RefVal) (s0 : S), (New hn nx cv ntv s0).index = -1) ∧
    (∀ (S T : Type) (c : Cursor S T), (c.HasNext).2.index = c.index) ∧
    (∀ (S T : Type) (c : Cursor S T), c.index ≤ (c.Next).2.index) ∧
    (∀ (S T : Type) (c : Cursor S T) (fuel : Nat) (key : RefVal),
        c.index ≤ (Cursor.Get fuel c key).2.index) ∧
    (∀ (S T : Type) (c : Cursor S T) (fuel : Nat), c.index ≤ (Cursor.Size fuel c).2.index) ∧
    (∀ (S T : Type) (c : Cursor S T) (fuel : Nat) (x : RefVal),
        c.index ≤ (Cursor.Contains fuel c x).2.index) := by
  refine ⟨fun S T _ hn nx cv ntv s0 => rfl,
    fun S T c => HasNext_index c,
    fun S T c => Next_index_le c,
    ?_,
    fun S T c fuel => sizeLoop_index_le fuel 0 c,
    fun S T c fuel x => containsLoop_index_le fuel x c⟩
  intro S T c fuel key
  cases key with
  | int k =>
    rw [Cursor.Get]
    by_cases h0 : k < 0
    · rw [if_pos h0]
    · rw [if_neg h0]
      by_cases h1 : k < c.index
      · rw [if_pos h1]
      · rw [if_neg h1]
        exact getLoop_index_le fuel k c
  | bool b => exact le_refl _
  | str s => exact le_refl _
  | err e => exact le_refl _

/-- C8: `Next` invokes the `next` callback; on a callback error it returns a
host error value wrapping "error getting next element: …" and only the
producer state moves; on success it stores the element as `cur`, increments
`index`, advances the producer state, and returns `convert` of the element —
the state change is part of the operation itself, independent of whether
the caller uses the returned value. -/
theorem next_behavior :
    (∀ (S T : Type) (c : Cursor S T) (e : String) (s : S),
        c.next c.pstate = (.error e, s) →
        c.Next = (.err ("error getting next element: " ++ e), { c with pstate := s })) ∧
    (∀ (S T : Type) (c : Cursor S T) (t : T) (s : S),
        c.next c.pstate = (.ok t, s) →
        c.Next = (c.convert t, { c with cur := t, index := c.index + 1, pstate := s })) := by
  constructor
  · intro S T c e s h
    rw [Cursor.Next, h]
  · intro S T c t s h
    rw [Cursor.Next, h]

/-- C8 witness: a failing advance on an exhausted cursor and a successful
advance on a fresh stream cursor. -/
theorem next_behavior_witness :
    idxCursor.next idxCursor.pstate = (.error "no next element", ()) ∧
    idxCursor.Next = (.err "error getting next element: no next element",
      { idxCursor with pstate := () }) ∧
    (streamCursor (fun i => i) none (fun t => RefVal.int t)).Next
      = (RefVal.int 0, streamState (fun i => i) none (fun t => RefVal.int t) 1) := by
  refine ⟨rfl, next_behavior.1 Unit String idxCursor "no next element" () rfl, ?_⟩
  have h := next_behavior.2 Nat Nat (streamCursor (fun i => i) none (fun t => RefVal.int t)) 0 1 rfl
  rw [h]
  exact congrArg (Prod.mk (RefVal.int 0))
    (congrArg Prod.snd (streamState_Next (fun i => i) none (fun t => RefVal.int t) 0)).symm ▸ rfl

/-- C9 counterexample: before any advance `ConvertToNative` does not raise a
typed error: on a fresh string cursor — the zero-value element "" has type
string, assignable to the requested string type — it returns the zero value
as a normal result, and on a fresh cursor whose element type is
interface-like (zero value nil) it faults in reflection instead of
returning an error. -/
theorem convertToNative_no_preAdvance_guard :
    freshStrCursor.ConvertToNative strTypeOf GoType.tString = NativeOutcome.ok "" ∧
    freshNilCursor.ConvertToNative optTypeOf GoType.tString = NativeOutcome.fault :=
  ⟨rfl, rfl⟩

/-- C9 (amended): `ConvertToNative` returns the current element whenever its
runtime type is assignable to the requested native type, and an error naming
both types otherwise; there is no special pre-advance guard: before any
advance the check simply runs on the zero-value element, and when that
element is a nil interface (no runtime type) the reflection call faults. -/
theorem convertToNative_behavior :
    (∀ (S T : Type) (c : Cursor S T) (typeOf : T → Option GoType) (typ gt : GoType),
        typeOf c.cur = some gt → assignableTo gt typ = true →
        c.ConvertToNative typeOf typ = NativeOutcome.ok c.cur) ∧
    (∀ (S T : Type) (c : Cursor S T) (typeOf : T → Option GoType) (typ gt : GoType),
        typeOf c.cur = some gt → assignableTo gt typ = false →
        c.ConvertToNative typeOf typ
          = NativeOutcome.err ("unable to convert dyn to native type " ++ typ.name)) ∧
    (∀ (S T : Type) (c : Cursor S T) (typeOf : T → Option GoType) (typ : GoType),
        typeOf c.cur = none → c.ConvertToNative typeOf typ = NativeOutcome.fault) := by
  refine ⟨?_, ?_, ?_⟩
  · intro S T c typeOf typ gt h ha
    rw [Cursor.ConvertToNative, h]
    simp [ha]
  · intro S T c typeOf typ gt h ha
    rw [Cursor.ConvertToNative, h]
    simp [ha]
  · intro S T c typeOf typ h
    rw [Cursor.ConvertToNative, h]

/-- C9 witness: assignable, non-assignable and nil-typed current elements. -/
theorem convertToNative_behavior_witness :
    strTypeOf idxCursor.cur = some GoType.tString ∧
    idxCursor.ConvertToNative strTypeOf GoType.tString = NativeOutcome.ok "sample" ∧
    idxCursor.ConvertToNative strTypeOf GoType.tInt
      = NativeOutcome.err "unable to convert dyn to native type int" ∧
    optTypeOf freshNilCursor.cur = none ∧
    freshNilCursor.ConvertToNative optTypeOf GoType.tInt = NativeOutcome.fault :=
  ⟨rfl,
   convertToNative_behavior.1 Unit String idxCursor strTypeOf GoType.tString GoType.tString rfl rfl,
   convertToNative_behavior.2.1 Unit String idxCursor strTypeOf GoType.tInt GoType.tString rfl rfl,
   rfl,
   convertToNative_behavior.2.2 Unit (Option String) freshNilCursor optTypeOf GoType.tInt rfl⟩

/-- C10: once at least one successful advance has happened (`index ≥ 0`),
`Get` at the cursor's current index re-delivers `convert` of the current
element and leaves the entire cursor — including the producer state that any
callback invocation could have moved — untouched, so the re-read can be
repeated any number of times, also on a cursor that `Size` or `Contains` has
exhausted. -/
theorem get_at_current_index {S T : Type} (c : Cursor S T) (fuel : Nat)
    (hidx : 0 ≤ c.index) (hfuel : 0 < fuel) :
    Cursor.Get fuel c (.int c.index) = (Outcome.ret (c.convert c.cur), c) := by
  obtain ⟨f, rfl⟩ : ∃ f, fuel = f + 1 := ⟨fuel - 1, by omega⟩
  rw [Cursor.Get, if_neg (by omega), if_neg (by omega), Cursor.getLoop, if_neg (by omega)]

/-- C10 witness: re-reading index 2 on the exhausted cursor that delivered
"sample" there. -/
theorem get_at_current_index_witness :
    (0 : Int) ≤ idxCursor.index ∧
    Cursor.Get 1 idxCursor (.int 2) = (Outcome.ret (RefVal.str "sample"), idxCursor) :=
  ⟨by decide, get_at_current_index idxCursor 1 (by decide) (by decide)⟩

end Celiter
